import Mathlib

/-!
Verification development for the solidity state-adapter and
contract-creation pipeline (package `solidity`: `statedb.go`,
`tx_create_contract.go`, and the balance-transfer primitives).

The Go code is shallowly embedded: the ledger context becomes an explicit
state record, panics become `Option`/sum outcomes, machine integers become
`Nat` with explicit `% 2 ^ w` where the code converts or truncates, and the
external collaborators (the ledger context primitives, the hash function,
the serialization helpers, the VM) are modelled at their interface boundary.
-/

/-- Little-endian byte encoding of `n` in exactly `w` bytes
(each byte is `n`'s next radix-256 digit, mirroring `binary.LittleEndian`). -/
def toLE : Nat → Nat → List Nat
  | 0, _ => []
  | w + 1, n => n % 256 :: toLE w (n / 256)

/-- Little-endian byte decoding, mirroring `binary.LittleEndian` reads. -/
def fromLE : List Nat → Nat
  | [] => 0
  | b :: bs => b + 256 * fromLE bs

/-- Byte values of a Go string literal (UTF-8 of the ASCII keyword names). -/
def strBytes (s : String) : List Nat := s.toList.map (fun c => c.toNat)

/-- Modelled from the spec: the external 256-bit hash function
`hash.Hash` from `github.com/fletaio/common/hash` (not part of this
repository). It is modelled as a fixed computable function producing a
32-byte digest; the claims depend only on it being a deterministic
function with distinct digests for the four distinct keyword strings. -/
def hashFn (bs : List Nat) : List Nat :=
  toLE 32 (bs.foldl (fun h b => (h * 1099511628211 + b + 1) % 2 ^ 256) 14695981039346656037)

/-- `KeywordCode = hash.Hash([]byte("__CODE__"))` from `statedb.go`. -/
def KeywordCode : List Nat := hashFn (strBytes "__CODE__")

/-- `KeywordCodeHash = hash.Hash([]byte("__CODEHASH__"))` from `statedb.go`. -/
def KeywordCodeHash : List Nat := hashFn (strBytes "__CODEHASH__")

/-- `KeywordCodeSize = hash.Hash([]byte("__CODESIZE__"))` from `statedb.go`. -/
def KeywordCodeSize : List Nat := hashFn (strBytes "__CODESIZE__")

/-- `KeywordSuicide = hash.Hash([]byte("__SUICIDE__"))` from `statedb.go`. -/
def KeywordSuicide : List Nat := hashFn (strBytes "__SUICIDE__")

/-- The contents of `KeywordMap` as populated by `init()` in `statedb.go`:
only `KeywordCode`, `KeywordCodeHash` and `KeywordSuicide` are inserted
(`KeywordCodeSize` is not). -/
def KeywordMap (h : List Nat) : Bool :=
  decide (h = KeywordCode) || decide (h = KeywordCodeHash) || decide (h = KeywordSuicide)

/-- The ledger context's account-visible data: per-address balance
(`none` when no account is registered at the address), per-address
sequence number, per-address per-key account data blobs (`[]` when the
slot is absent), and the set of registered account names. Modelled from
the spec at the `data.Context` interface boundary (§6 of the spec). -/
structure CtxData where
  balance : Nat → Option Nat
  seqOf : Nat → Nat
  accountData : Nat → List Nat → List Nat
  nameExists : List Nat → Bool

/-- `Context.SetAccountData(addr, key, value)` on the modelled context. -/
def setAccountData (d : CtxData) (addr : Nat) (key val : List Nat) : CtxData :=
  { d with accountData := fun a k => if a = addr ∧ k = key then val else d.accountData a k }

/-- `Context.AddSeq(addr)` on the modelled context. -/
def addSeq (d : CtxData) (addr : Nat) : CtxData :=
  { d with seqOf := fun a => if a = addr then d.seqOf addr + 1 else d.seqOf a }

/-- Overwrite the balance of a (registered) account. -/
def setBalance (d : CtxData) (addr : Nat) (v : Nat) : CtxData :=
  { d with balance := fun a => if a = addr then some v else d.balance a }

namespace StateDB

/-- `StateDB.GetState` from `statedb.go`: reads the account-data blob and
copies it into a zero-initialised 32-byte value (`copy(ret[:], bs)`):
the first `min 32 (len bs)` bytes come from the blob, the rest stay zero. -/
def GetState (d : CtxData) (addr : Nat) (h : List Nat) : List Nat :=
  let bs := d.accountData addr h
  bs.take 32 ++ List.replicate (32 - bs.length) 0

/-- `StateDB.SetState` from `statedb.go`: panics (`none`) when the key is
in `KeywordMap`, otherwise stores the 32-byte value under the key. -/
def SetState (d : CtxData) (addr : Nat) (h v : List Nat) : Option CtxData :=
  if KeywordMap h then none
  else some (setAccountData d addr h v)

/-- `StateDB.GetCode` from `statedb.go`. -/
def GetCode (d : CtxData) (addr : Nat) : List Nat :=
  d.accountData addr KeywordCode

/-- `StateDB.GetCodeHash` from `statedb.go`. -/
def GetCodeHash (d : CtxData) (addr : Nat) : List Nat :=
  GetState d addr KeywordCodeHash

/-- `StateDB.SetCode` from `statedb.go`: stores the code, then the hash of
the code, then the 4-byte little-endian `uint32(len(code))`
(the Go conversion truncates the length modulo `2 ^ 32`). -/
def SetCode (d : CtxData) (addr : Nat) (code : List Nat) : CtxData :=
  let d1 := setAccountData d addr KeywordCode code
  let d2 := setAccountData d1 addr KeywordCodeHash (hashFn code)
  setAccountData d2 addr KeywordCodeSize (toLE 4 (code.length % 2 ^ 32))

/-- `StateDB.GetCodeSize` from `statedb.go`: decodes the stored 4-byte
little-endian length, returning 0 when the slot is absent or not exactly
4 bytes long. -/
def GetCodeSize (d : CtxData) (addr : Nat) : Nat :=
  let bs := d.accountData addr KeywordCodeSize
  if bs.length = 4 then fromLE bs else 0

/-- `StateDB.GetBalance` from `statedb.go`: panics (`none`) when the
account lookup fails, otherwise returns the balance. -/
def GetBalance (d : CtxData) (addr : Nat) : Option Nat :=
  d.balance addr

/-- `StateDB.SubBalance` from `statedb.go`: panics (`none`) when the
account lookup fails or when the underlying debit fails (insufficient
balance — per the spec, debiting below zero is a reported failure of the
account operation). -/
def SubBalance (d : CtxData) (addr : Nat) (amt : Nat) : Option CtxData :=
  match d.balance addr with
  | none => none
  | some b => if b < amt then none else some (setBalance d addr (b - amt))

/-- `StateDB.AddBalance` from `statedb.go`: panics (`none`) when the
account lookup fails, otherwise credits. -/
def AddBalance (d : CtxData) (addr : Nat) (amt : Nat) : Option CtxData :=
  match d.balance addr with
  | none => none
  | some b => some (setBalance d addr (b + amt))

/-- `StateDB.Empty` from `statedb.go`: fetches the account (panicking —
`none` — when the lookup fails), then reports
`seq == 0 && balance == 0 && code size == 0`. -/
def Empty (d : CtxData) (addr : Nat) : Option Bool :=
  match d.balance addr with
  | none => none
  | some b =>
      some (decide (d.seqOf addr = 0) && decide (b = 0) && decide (GetCodeSize d addr = 0))

end StateDB

/-- `CanTransfer` from the balance-transfer primitives:
`!db.GetBalance(addr).Less(amount)`; the balance read panics (`none`)
when the account is missing. -/
def CanTransfer (d : CtxData) (addr : Nat) (amt : Nat) : Option Bool :=
  (StateDB.GetBalance d addr).map (fun b => ! decide (b < amt))

/-- `Transfer` from the balance-transfer primitives: a no-op for a zero
amount, otherwise `SubBalance` on the sender then `AddBalance` on the
recipient (either panic — `none` — propagates). -/
def Transfer (d : CtxData) (sender recipient : Nat) (amt : Nat) : Option CtxData :=
  if amt = 0 then some d
  else (StateDB.SubBalance d sender amt).bind (fun d1 => StateDB.AddBalance d1 recipient amt)

/-- A context with no accounts, no data and no names. -/
def emptyCtxData : CtxData :=
  { balance := fun _ => none
    seqOf := fun _ => 0
    accountData := fun _ _ => []
    nameExists := fun _ => false }

/-- The error values of the package (`errors.go` symbols referenced by
`tx_create_contract.go` and `statedb.go`); `otherErr` stands for error
values produced by external collaborators (ledger context, VM). -/
inductive ErrVal where
  | invalidSequence
  | invalidSignerCount
  | notAllowed
  | existAddress
  | existAccountName
  | insufficientBalance
  | virtualMachinePanic
  | accountNotFound
  | otherErr (s : String)
deriving DecidableEq

/-- A Go panic value: either an `error` value or a non-error value
(such as the string `"reserved keyword"` or a runtime fault). -/
inductive PanicVal where
  | errVal (e : ErrVal)
  | nonError (s : String)
deriving DecidableEq

/-- The conversion performed by the `recover` handler of the apply
closure in `tx_create_contract.go`: an error panic value passes through
unchanged, any other panic value becomes `ErrVirtualMachinePanic`. -/
def recoverErr : PanicVal → ErrVal
  | .errVal e => e
  | .nonError _ => .virtualMachinePanic

/-- The ledger context together with its snapshot journal: the current
data and the stack of saved copies (most recent first). Snapshot handles
count from 1 at the bottom of the stack, as in §3 of the spec. -/
structure CtxState where
  data : CtxData
  snaps : List CtxData

/-- `Context.Snapshot()`: push a copy of the current data, return the new
handle (the stack height after the push). -/
def ctxSnapshot (st : CtxState) : Nat × CtxState :=
  (st.snaps.length + 1, ⟨st.data, st.data :: st.snaps⟩)

/-- `Context.Revert(n)`: restore the data saved at handle `n` and discard
handle `n` and everything above it; a handle that no longer exists is a
no-op (the committed-then-deferred-revert case of the apply closure). -/
def ctxRevert (n : Nat) (st : CtxState) : CtxState :=
  if 1 ≤ n ∧ n ≤ st.snaps.length then
    ⟨st.snaps.getD (st.snaps.length - n) st.data, st.snaps.drop (st.snaps.length - n + 1)⟩
  else st

/-- `Context.Commit(n)`: keep the current data, folding the mutations made
since handle `n` into the enclosing scope, and discard handle `n` and
everything above it. -/
def ctxCommit (n : Nat) (st : CtxState) : CtxState :=
  if 1 ≤ n ∧ n ≤ st.snaps.length then
    ⟨st.data, st.snaps.drop (st.snaps.length - n + 1)⟩
  else st

/-- Lift a data-only mutation to the snapshotted context. -/
def liftData (f : CtxData → CtxData) (st : CtxState) : CtxState :=
  ⟨f st.data, st.snaps⟩

/-- The `solidity.CreateContract` transaction: the common envelope
(`transaction.Base`: type tag and timestamp), `Seq_`, `From_`, `Name`,
`Code` and `Params`. Addresses and integer fields are `Nat`; the name is
kept as its byte string. -/
structure CreateContract where
  type_ : Nat
  timestamp_ : Nat
  seq_ : Nat
  from_ : Nat
  name : List Nat
  code : List Nat
  params : List Nat
deriving DecidableEq

/-- Modelled from the spec: `common.NewAddress(coord, 0)`, the
deterministic contract address derived from the execution coordinate with
sub-index zero (`common` is not part of this repository). -/
def NewAddress (coord : Nat) : Nat := coord

/-- The input the apply closure hands to `evm.Create`: transaction origin,
the derived contract address, the contract name, the concatenated
code-and-parameters init code, the zero value, and the block metadata
(number 100, the wall-clock time, zero difficulty) from `vm.Context`. -/
structure VMInput where
  origin : Nat
  contAddr : Nat
  name : List Nat
  initCode : List Nat
  value : Nat
  blockNumber : Nat
  time : Nat
  difficulty : Nat

/-- Outcome of `evm.Create`: deployed code, an error, or a panic. -/
inductive VMResult where
  | ok (code : List Nat)
  | err (e : ErrVal)
  | panicked (v : PanicVal)
deriving DecidableEq

/-- Modelled from the spec: the external VM's creation entry point
(§6 — `Create(caller, address, name, initCode, value)`), as a state
transformer over the adapter-visible context. -/
def VMModel : Type := CtxState → VMInput → VMResult × CtxState

/-- Result of the validate closure: success, a returned error, or a panic
propagating out of the closure. -/
inductive VOut where
  | ok
  | errE (e : ErrVal)
  | panicked (v : PanicVal)
deriving DecidableEq

/-- The validate closure of `solidity.CreateContract` from
`tx_create_contract.go`. `allowed` is the `allowedKeyMap` allow-list and
`accValidate` models the external `Accounter().Validate` policy check
(`none` = no error). The checks run in source order: the sequence bound,
then `len(signers) > 1`, then the indexing `signers[0]` — which panics
with an index-out-of-range runtime fault when `signers` is empty — then
the allow-list, the account lookup, and the signature policy. -/
def validateCreate (loader : CtxData) (allowed : Nat → Bool)
    (accValidate : Nat → List Nat → Option ErrVal)
    (tx : CreateContract) (signers : List Nat) : VOut :=
  if tx.seq_ ≤ loader.seqOf tx.from_ then .errE .invalidSequence
  else if 1 < signers.length then .errE .invalidSignerCount
  else
    match signers with
    | [] => .panicked (.nonError "index out of range")
    | s0 :: _ =>
      if ! allowed s0 then .errE .notAllowed
      else
        match loader.balance tx.from_ with
        | none => .errE .accountNotFound
        | some _ =>
          match accValidate tx.from_ signers with
          | some e => .errE e
          | none => .ok

/-- The body of the apply closure of `solidity.CreateContract`
(everything between the `recover` guard and the deferred revert), with
`sn` the handle of the opening snapshot: the strict sequence re-check,
the sequence increment, the fee debit, the address/name collision
checks, and the `evm.Create` call; `Sum.inr` carries a panic escaping
toward the `recover` guard. On VM success the snapshot is committed. -/
def applyInner (vm : VMModel) (now fee : Nat) (tx : CreateContract) (coord sn : Nat)
    (st : CtxState) : (Except ErrVal (List Nat) ⊕ PanicVal) × CtxState :=
  if tx.seq_ ≠ st.data.seqOf tx.from_ + 1 then (.inl (.error .invalidSequence), st)
  else
    let st := liftData (fun d => addSeq d tx.from_) st
    match st.data.balance tx.from_ with
    | none => (.inl (.error .accountNotFound), st)
    | some b =>
      if b < fee then (.inl (.error .insufficientBalance), st)
      else
        let st := liftData (fun d => setBalance d tx.from_ (b - fee)) st
        let contAddr := NewAddress coord
        if (st.data.balance contAddr).isSome then (.inl (.error .existAddress), st)
        else if st.data.nameExists tx.name then (.inl (.error .existAccountName), st)
        else
          match vm st ⟨tx.from_, contAddr, tx.name, tx.code ++ tx.params, 0, 100, now, 0⟩ with
          | (.ok code, st') => (.inl (.ok code), ctxCommit sn st')
          | (.err e, st') => (.inl (.error e), st')
          | (.panicked v, st') => (.inr v, st')

/-- The apply closure of `solidity.CreateContract` from
`tx_create_contract.go`: open a snapshot, run the body, then — as the
deferred calls unwind — revert to the opening snapshot (a no-op after the
success path's commit) and convert any panic through the `recover`
handler. `now` is the wall-clock reading the closure embeds as the VM
block time (`time.Now().Unix()`). -/
def applyCreate (vm : VMModel) (now fee : Nat) (tx : CreateContract) (coord : Nat)
    (ctx : CtxState) : Except ErrVal (List Nat) × CtxState :=
  let p := ctxSnapshot ctx
  match applyInner vm now fee tx coord p.1 p.2 with
  | (.inl r, st') => (r, ctxRevert p.1 st')
  | (.inr v, st') => (.error (recoverErr v), ctxRevert p.1 st')

/-- Modelled from the spec: the primitive wire read underlying the
`util.Read*` helpers (not part of this repository) — consume exactly `n`
bytes, or fail on a short read. -/
def readExact (n : Nat) (bs : List Nat) : Option (List Nat × List Nat) :=
  if n ≤ bs.length then some (bs.take n, bs.drop n) else none

/-- Modelled from the spec: read a `w`-byte little-endian unsigned
integer (the `util.ReadUint*` helpers and length prefixes). -/
def readLE (w : Nat) (bs : List Nat) : Option (Nat × List Nat) :=
  (readExact w bs).map (fun p => (fromLE p.1, p.2))

/-- `CreateContract.WriteTo` from `tx_create_contract.go`, with the
external helpers modelled from the spec (§4.5): the common envelope
(1-byte type tag, 8-byte timestamp), the 8-byte sequence, the fixed
14-byte address, then the length-prefixed (4-byte little-endian) name,
code and parameter byte strings, in that exact order. -/
def encodeTx (tx : CreateContract) : List Nat :=
  toLE 1 tx.type_ ++ toLE 8 tx.timestamp_ ++ toLE 8 tx.seq_ ++ toLE 14 tx.from_ ++
    (toLE 4 tx.name.length ++ tx.name) ++
    (toLE 4 tx.code.length ++ tx.code) ++
    (toLE 4 tx.params.length ++ tx.params)

/-- `CreateContract.ReadFrom` from `tx_create_contract.go`, with the
external helpers modelled from the spec (§4.5): the same fields read in
the same order; any short read or length prefix announcing more bytes
than available is a decode failure (`none`). Returns the decoded
transaction and the unconsumed remainder. -/
def decodeTx (bs0 : List Nat) : Option (CreateContract × List Nat) :=
  (readLE 1 bs0).bind fun p1 =>
  (readLE 8 p1.2).bind fun p2 =>
  (readLE 8 p2.2).bind fun p3 =>
  (readLE 14 p3.2).bind fun p4 =>
  (readLE 4 p4.2).bind fun p5 =>
  (readExact p5.1 p5.2).bind fun p6 =>
  (readLE 4 p6.2).bind fun p7 =>
  (readExact p7.1 p7.2).bind fun p8 =>
  (readLE 4 p8.2).bind fun p9 =>
  (readExact p9.1 p9.2).bind fun p10 =>
  some (⟨p1.1, p2.1, p3.1, p4.1, p6.1, p8.1, p10.1⟩, p10.2)

/-- A context holding one registered account, at address 1, with the
given balance, sequence 0, no account data and no names. -/
def acct1 (bal : Nat) : CtxData :=
  { balance := fun a => if a = 1 then some bal else none
    seqOf := fun _ => 0
    accountData := fun _ _ => []
    nameExists := fun _ => false }

/-- A context holding two registered accounts, at addresses 0 and 1,
with the given balances. -/
def accts01 (b0 b1 : Nat) : CtxData :=
  { balance := fun a => if a = 0 then some b0 else if a = 1 then some b1 else none
    seqOf := fun _ => 0
    accountData := fun _ _ => []
    nameExists := fun _ => false }

/-- A VM model that immediately panics with a non-error value, leaving
the context untouched. -/
def vmBoom : VMModel := fun s _ => (.panicked (.nonError "boom"), s)

/-- A VM model whose deployed code is the block time it was handed — the
behaviour of any contract whose constructor reads the TIMESTAMP opcode. -/
def vmTime : VMModel := fun s i => (.ok [i.time], s)

/-- Basic lemma: `toLE` always produces exactly `w` bytes. -/
theorem toLE_length (w n : Nat) : (toLE w n).length = w := by
  induction w generalizing n with
  | zero => rfl
  | succ w ih => simp [toLE, ih]

/-- Basic lemma: decoding inverts encoding below the width bound. -/
theorem fromLE_toLE (w n : Nat) (h : n < 256 ^ w) : fromLE (toLE w n) = n := by
  induction w generalizing n with
  | zero => simp at h; simp [h, toLE, fromLE]
  | succ w ih =>
      have hdiv : n / 256 < 256 ^ w := by
        rw [Nat.div_lt_iff_lt_mul (by norm_num)]
        calc n < 256 ^ (w + 1) := h
        _ = 256 ^ w * 256 := by ring
      simp [toLE, fromLE, ih _ hdiv]
      omega

/-- The digest always has 32 bytes. -/
theorem hashFn_length (bs : List Nat) : (hashFn bs).length = 32 := toLE_length _ _

/-- The four reserved keywords are pairwise distinct digests. -/
theorem keywords_distinct :
    KeywordCode ≠ KeywordCodeHash ∧ KeywordCode ≠ KeywordCodeSize ∧
    KeywordCode ≠ KeywordSuicide ∧ KeywordCodeHash ≠ KeywordCodeSize ∧
    KeywordCodeHash ≠ KeywordSuicide ∧ KeywordCodeSize ≠ KeywordSuicide := by
  refine ⟨by decide, by decide, by decide, by decide, by decide, by decide⟩

/-- `KeywordCodeSize` is not in the keyword map built by `init()`. -/
theorem keywordMap_codesize : KeywordMap KeywordCodeSize = false := by decide


/-- C1: contrary to the claim, the reserved-slot protection covers only
CODE, CODEHASH and SUICIDE — `init()` never inserts `KeywordCodeSize`
into `KeywordMap`, so `SetState` on the CODESIZE key does not panic: it
returns normally and mutates the slot (while the CODE key, for contrast,
does panic). -/
theorem setState_codesize_not_protected :
    StateDB.SetState emptyCtxData 0 KeywordCodeSize (List.replicate 32 1)
      = some (setAccountData emptyCtxData 0 KeywordCodeSize (List.replicate 32 1)) ∧
    (setAccountData emptyCtxData 0 KeywordCodeSize (List.replicate 32 1)).accountData
      0 KeywordCodeSize = List.replicate 32 1 ∧
    emptyCtxData.accountData 0 KeywordCodeSize ≠ List.replicate 32 1 ∧
    StateDB.SetState emptyCtxData 0 KeywordCode (List.replicate 32 1) = none := by
  refine ⟨?_, ?_, ?_, ?_⟩
  · simp [StateDB.SetState, keywordMap_codesize]
  · simp [setAccountData]
  · simp [emptyCtxData]
  · simp [StateDB.SetState, KeywordMap]

/-- Reading back the slot just written. -/
theorem setAccountData_same (d : CtxData) (addr : Nat) (key val : List Nat) :
    (setAccountData d addr key val).accountData addr key = val := by
  simp [setAccountData]

/-- Writing one key leaves every other key unchanged. -/
theorem setAccountData_ne_key (d : CtxData) (addr : Nat) (key val : List Nat)
    (a : Nat) (k : List Nat) (h : k ≠ key) :
    (setAccountData d addr key val).accountData a k = d.accountData a k := by
  simp only [setAccountData]
  exact if_neg (fun hc => h hc.2)

/-- C3 (amended): for code shorter than `2 ^ 32` bytes, after
`SetCode(a, c)` the three code slots are jointly consistent. -/
theorem setCode_getters_consistent (d : CtxData) (a : Nat) (c : List Nat)
    (hlen : c.length < 2 ^ 32) :
    StateDB.GetCode (StateDB.SetCode d a c) a = c ∧
    StateDB.GetCodeHash (StateDB.SetCode d a c) a = hashFn c ∧
    StateDB.GetCodeSize (StateDB.SetCode d a c) a = c.length := by
  obtain ⟨k1, k2, k3, k4, k5, k6⟩ := keywords_distinct
  have hmod : c.length % 2 ^ 32 < 256 ^ 4 := by
    have h2 : c.length % 2 ^ 32 < 2 ^ 32 := Nat.mod_lt _ (by norm_num)
    calc c.length % 2 ^ 32 < 2 ^ 32 := h2
    _ = 256 ^ 4 := by norm_num
  refine ⟨?_, ?_, ?_⟩
  · simp only [StateDB.GetCode, StateDB.SetCode]
    rw [setAccountData_ne_key _ _ _ _ _ _ k2, setAccountData_ne_key _ _ _ _ _ _ k1,
      setAccountData_same]
  · have h32 : (hashFn c).length ≤ 32 := by rw [hashFn_length]
    simp only [StateDB.GetCodeHash, StateDB.GetState, StateDB.SetCode]
    rw [setAccountData_ne_key _ _ _ _ _ _ k4, setAccountData_same,
      List.take_of_length_le h32, hashFn_length]
    simp
  · simp only [StateDB.GetCodeSize, StateDB.SetCode]
    rw [setAccountData_same, toLE_length, if_pos rfl, fromLE_toLE 4 _ hmod,
      Nat.mod_eq_of_lt hlen]

/-- C3 witness: a concrete two-byte code at address 0. -/
theorem setCode_getters_consistent_witness :
    ([170, 187] : List Nat).length < 2 ^ 32 ∧
    (StateDB.GetCode (StateDB.SetCode emptyCtxData 0 [170, 187]) 0 = [170, 187] ∧
     StateDB.GetCodeHash (StateDB.SetCode emptyCtxData 0 [170, 187]) 0 = hashFn [170, 187] ∧
     StateDB.GetCodeSize (StateDB.SetCode emptyCtxData 0 [170, 187]) 0
       = ([170, 187] : List Nat).length) :=
  ⟨by decide, setCode_getters_consistent emptyCtxData 0 [170, 187] (by decide)⟩

/-- C3 counterexample: at a code of `2 ^ 32` bytes the stored size slot is
the truncated `uint32(len(code)) = 0`, so `GetCodeSize` differs from the
actual length. -/
theorem setCode_getCodeSize_truncates :
    StateDB.GetCodeSize (StateDB.SetCode emptyCtxData 0 (List.replicate (2 ^ 32) 0)) 0
      ≠ (List.replicate (2 ^ 32) (0 : Nat)).length := by
  have hL : (List.replicate (2 ^ 32) (0 : Nat)).length = 2 ^ 32 := List.length_replicate _ _
  rw [hL]
  simp only [StateDB.GetCodeSize, StateDB.SetCode]
  rw [setAccountData_same, hL, Nat.mod_self, toLE_length, if_pos rfl]
  decide

/-- Reverting the handle returned by a snapshot restores exactly the
saved data and stack, whatever the current data is. -/
theorem ctxRevert_snapshot (d' d : CtxData) (sns : List CtxData) :
    ctxRevert (sns.length + 1) ⟨d', d :: sns⟩ = ⟨d, sns⟩ := by
  simp [ctxRevert]

/-- C2: applying a contract-creation transaction whose sequence is not
the creator's current sequence plus one returns the sequence error and
leaves the ledger state (balances, sequences, account data — the whole
context) exactly as before the apply. -/
theorem applyCreate_bad_seq_reverts (vm : VMModel) (now fee : Nat) (tx : CreateContract)
    (coord : Nat) (ctx : CtxState) (hseq : tx.seq_ ≠ ctx.data.seqOf tx.from_ + 1) :
    applyCreate vm now fee tx coord ctx = (Except.error ErrVal.invalidSequence, ctx) := by
  have hinner : applyInner vm now fee tx coord (ctx.snaps.length + 1)
      ⟨ctx.data, ctx.data :: ctx.snaps⟩
      = (.inl (.error .invalidSequence), ⟨ctx.data, ctx.data :: ctx.snaps⟩) := by
    unfold applyInner
    exact if_pos hseq
  simp only [applyCreate, ctxSnapshot, hinner, ctxRevert_snapshot]

/-- C2 witness: a transaction with sequence 5 against a creator whose
current sequence is 0. -/
theorem applyCreate_bad_seq_reverts_witness :
    (5 : Nat) ≠ (acct1 100).seqOf 1 + 1 ∧
    applyCreate vmBoom 0 10 ⟨0, 0, 5, 1, [70], [2], []⟩ 7 ⟨acct1 100, []⟩
      = (Except.error ErrVal.invalidSequence, ⟨acct1 100, []⟩) :=
  ⟨by decide, applyCreate_bad_seq_reverts vmBoom 0 10 ⟨0, 0, 5, 1, [70], [2], []⟩ 7
    ⟨acct1 100, []⟩ (by decide)⟩

/-- Incrementing a sequence leaves balances untouched. -/
theorem addSeq_balance (d : CtxData) (a : Nat) : (addSeq d a).balance = d.balance := rfl

/-- Incrementing a sequence leaves the name registry untouched. -/
theorem addSeq_nameExists (d : CtxData) (a : Nat) : (addSeq d a).nameExists = d.nameExists := rfl

/-- Setting a balance leaves the name registry untouched. -/
theorem setBalance_nameExists (d : CtxData) (a v : Nat) :
    (setBalance d a v).nameExists = d.nameExists := rfl

/-- Setting one account's balance leaves the others unchanged. -/
theorem setBalance_balance_ne (d : CtxData) (a v x : Nat) (h : x ≠ a) :
    (setBalance d a v).balance x = d.balance x := by
  simp [setBalance, h]

/-- C4: a panic surfacing from the VM call of the apply phase is caught
by the recover guard and converted — an error panic value is returned
unchanged, any other panic value becomes the generic
`ErrVirtualMachinePanic` — and the deferred revert restores the ledger
context to its pre-apply state. The hypotheses put the apply run at the
VM call (all earlier checks pass) and assume the VM keeps the snapshot
stack balanced, as §5 of the spec requires of callers. -/
theorem applyCreate_panic_recovered (vm : VMModel) (now fee coord : Nat)
    (tx : CreateContract) (ctx : CtxState) (v : PanicVal) (b : Nat)
    (hseq : tx.seq_ = ctx.data.seqOf tx.from_ + 1)
    (hacct : ctx.data.balance tx.from_ = some b)
    (hfee : fee ≤ b)
    (haddr : ctx.data.balance (NewAddress coord) = none)
    (hname : ctx.data.nameExists tx.name = false)
    (hvm : ∀ s i, (vm s i).1 = VMResult.panicked v ∧ (vm s i).2.snaps = s.snaps) :
    applyCreate vm now fee tx coord ctx = (Except.error (recoverErr v), ctx) := by
  have hne : NewAddress coord ≠ tx.from_ := by
    intro h
    rw [h, hacct] at haddr
    exact Option.noConfusion haddr
  have hns : ¬ tx.seq_ ≠ ctx.data.seqOf tx.from_ + 1 := fun hc => hc hseq
  have hflt : ¬ b < fee := Nat.not_lt.mpr hfee
  obtain ⟨h1, h2⟩ := hvm
    ⟨setBalance (addSeq ctx.data tx.from_) tx.from_ (b - fee), ctx.data :: ctx.snaps⟩
    ⟨tx.from_, NewAddress coord, tx.name, tx.code ++ tx.params, 0, 100, now, 0⟩
  simp only [applyCreate, ctxSnapshot, applyInner, liftData, addSeq_balance, hacct,
    if_neg hns, if_neg hflt, setBalance_nameExists, addSeq_nameExists, hname,
    setBalance_balance_ne _ _ _ _ hne, haddr, Option.isSome_none, Bool.false_eq_true,
    if_false, Bool.if_false_left]
  rcases hp : vm
      ⟨setBalance (addSeq ctx.data tx.from_) tx.from_ (b - fee), ctx.data :: ctx.snaps⟩
      ⟨tx.from_, NewAddress coord, tx.name, tx.code ++ tx.params, 0, 100, now, 0⟩
    with ⟨r, s'⟩
  rw [hp] at h1 h2
  simp only at h1 h2
  subst h1
  obtain ⟨sd', ss'⟩ := s'
  simp only at h2
  subst h2
  simp only [ctxRevert_snapshot]

/-- C4 witness: a VM that panics with a non-error value on a run that
reaches the VM call; the apply returns `ErrVirtualMachinePanic` and the
context is reverted to its pre-apply state. -/
theorem applyCreate_panic_recovered_witness :
    ((1 : Nat) = (acct1 100).seqOf 1 + 1) ∧
    ((acct1 100).balance 1 = some 100) ∧ ((10 : Nat) ≤ 100) ∧
    ((acct1 100).balance (NewAddress 5) = none) ∧
    ((acct1 100).nameExists [70, 111, 111] = false) ∧
    (∀ s i, (vmBoom s i).1 = VMResult.panicked (.nonError "boom") ∧
      (vmBoom s i).2.snaps = s.snaps) ∧
    applyCreate vmBoom 0 10 ⟨0, 0, 1, 1, [70, 111, 111], [170, 187], []⟩ 5 ⟨acct1 100, []⟩
      = (Except.error ErrVal.virtualMachinePanic, ⟨acct1 100, []⟩) :=
  ⟨by decide, by decide, by decide, by decide, by decide, fun s i => ⟨rfl, rfl⟩,
    applyCreate_panic_recovered vmBoom 0 10 5 ⟨0, 0, 1, 1, [70, 111, 111], [170, 187], []⟩
      ⟨acct1 100, []⟩ (.nonError "boom") 100 (by decide) (by decide) (by decide)
      (by decide) (by decide) (fun s i => ⟨rfl, rfl⟩)⟩

/-- C5 (amended): once the sequence check has passed, a signer set with
more than one signer is rejected with the signer-count error; a signer
set with zero signers is not — the closure indexes `signers[0]` and
fails fatally with an index-out-of-range panic instead. -/
theorem validateCreate_signer_count (loader : CtxData) (allowed : Nat → Bool)
    (accV : Nat → List Nat → Option ErrVal) (tx : CreateContract) (signers : List Nat)
    (hseq : loader.seqOf tx.from_ < tx.seq_) :
    (1 < signers.length →
      validateCreate loader allowed accV tx signers = VOut.errE ErrVal.invalidSignerCount) ∧
    validateCreate loader allowed accV tx []
      = VOut.panicked (.nonError "index out of range") := by
  have hs : ¬ tx.seq_ ≤ loader.seqOf tx.from_ := Nat.not_le.mpr hseq
  constructor
  · intro h
    unfold validateCreate
    rw [if_neg hs, if_pos h]
  · unfold validateCreate
    rw [if_neg hs, if_neg (by simp)]

/-- C5 witness: with the sequence check passing, a two-signer set gets
the signer-count error and the empty signer set gets the panic. -/
theorem validateCreate_signer_count_witness :
    ((acct1 100).seqOf 1 < 1) ∧ (1 < ([8, 9] : List Nat).length) ∧
    validateCreate (acct1 100) (fun _ => true) (fun _ _ => none)
      ⟨0, 0, 1, 1, [70], [2], []⟩ [8, 9] = VOut.errE ErrVal.invalidSignerCount ∧
    validateCreate (acct1 100) (fun _ => true) (fun _ _ => none)
      ⟨0, 0, 1, 1, [70], [2], []⟩ [] = VOut.panicked (.nonError "index out of range") :=
  ⟨by decide, by decide,
    (validateCreate_signer_count (acct1 100) (fun _ => true) (fun _ _ => none)
      ⟨0, 0, 1, 1, [70], [2], []⟩ [8, 9] (by decide)).1 (by decide),
    (validateCreate_signer_count (acct1 100) (fun _ => true) (fun _ _ => none)
      ⟨0, 0, 1, 1, [70], [2], []⟩ [8, 9] (by decide)).2⟩

/-- C5 counterexample: a zero-signer set — which does not "contain
exactly one signer" — does not produce the signer-count error: validate
ends in the index-out-of-range panic instead. -/
theorem validateCreate_zero_signers_no_count_error :
    validateCreate (acct1 50) (fun _ => true) (fun _ _ => none)
      ⟨0, 0, 1, 1, [71], [3], []⟩ [] ≠ VOut.errE ErrVal.invalidSignerCount := by
  decide

/-- C6: the apply phase is not a function of (state, fee, transaction,
coordinate) alone — the closure embeds the wall-clock reading
(`time.Now().Unix()`) as the VM block time, so a contract whose
constructor reads the block time deploys different code on two runs from
the identical ledger state, fee, transaction and coordinate taken at
different wall-clock instants. -/
theorem applyCreate_depends_on_wall_clock :
    (applyCreate vmTime 0 10 ⟨0, 0, 1, 1, [70], [2], []⟩ 5 ⟨acct1 100, []⟩).1
      = Except.ok [0] ∧
    (applyCreate vmTime 1 10 ⟨0, 0, 1, 1, [70], [2], []⟩ 5 ⟨acct1 100, []⟩).1
      = Except.ok [1] ∧
    (Except.ok [0] : Except ErrVal (List Nat)) ≠ Except.ok [1] := by
  refine ⟨rfl, rfl, by simp⟩

/-- C7 (amended): for a nonzero amount not exceeding the sender's
balance, with sender and recipient distinct registered accounts,
`Transfer` debits the sender and credits the recipient by exactly the
amount, conserves the total across the two accounts and touches no other
balance; a zero amount is a no-op. (For an amount exceeding the sender's
balance the underlying debit fails — see the counterexample.) -/
theorem transfer_exact_conserved (d : CtxData) (s r amt bs br : Nat)
    (hbs : d.balance s = some bs) (hbr : d.balance r = some br) (hne : s ≠ r)
    (hsuff : amt ≤ bs) :
    (amt ≠ 0 → ∃ d', Transfer d s r amt = some d' ∧
      d'.balance s = some (bs - amt) ∧ d'.balance r = some (br + amt) ∧
      (bs - amt) + (br + amt) = bs + br ∧
      ∀ a, a ≠ s → a ≠ r → d'.balance a = d.balance a) ∧
    Transfer d s r 0 = some d := by
  constructor
  · intro hnz
    refine ⟨setBalance (setBalance d s (bs - amt)) r (br + amt), ?_, ?_, ?_, ?_, ?_⟩
    · have h1 : StateDB.SubBalance d s amt = some (setBalance d s (bs - amt)) := by
        unfold StateDB.SubBalance
        rw [hbs]
        simp [Nat.not_lt.mpr hsuff]
      have h2 : StateDB.AddBalance (setBalance d s (bs - amt)) r amt
          = some (setBalance (setBalance d s (bs - amt)) r (br + amt)) := by
        unfold StateDB.AddBalance
        rw [setBalance_balance_ne _ _ _ _ (Ne.symm hne), hbr]
      unfold Transfer
      rw [if_neg hnz, h1]
      simp [h2]
    · rw [setBalance_balance_ne _ _ _ _ hne]
      simp [setBalance]
    · simp [setBalance]
    · omega
    · intro a has har
      rw [setBalance_balance_ne _ _ _ _ har, setBalance_balance_ne _ _ _ _ has]
  · simp [Transfer]

/-- C7 witness: moving 4 from a balance of 10 to a balance of 3. -/
theorem transfer_exact_conserved_witness :
    ((accts01 10 3).balance 0 = some 10) ∧ ((accts01 10 3).balance 1 = some 3) ∧
    ((0 : Nat) ≠ 1) ∧ ((4 : Nat) ≤ 10) ∧
    ((4 ≠ 0 → ∃ d', Transfer (accts01 10 3) 0 1 4 = some d' ∧
        d'.balance 0 = some (10 - 4) ∧ d'.balance 1 = some (3 + 4) ∧
        (10 - 4) + (3 + 4) = 10 + 3 ∧
        ∀ a, a ≠ 0 → a ≠ 1 → d'.balance a = (accts01 10 3).balance a) ∧
      Transfer (accts01 10 3) 0 1 0 = some (accts01 10 3)) :=
  ⟨by decide, by decide, by decide, by decide,
    transfer_exact_conserved (accts01 10 3) 0 1 4 10 3 (by decide) (by decide)
      (by decide) (by decide)⟩

/-- C7 counterexample: a nonzero amount exceeding the sender's balance is
not debited-and-credited — the underlying debit fails (a panic, `none`),
so no resulting state exists, refuting the claim's universal form. -/
theorem transfer_insufficient_panics :
    Transfer (accts01 0 5) 0 1 1 = none ∧
    ¬ ∃ d', Transfer (accts01 0 5) 0 1 1 = some d' := by
  constructor
  · rfl
  · intro h
    obtain ⟨d', hd⟩ := h
    rw [show Transfer (accts01 0 5) 0 1 1 = none from rfl] at hd
    exact Option.noConfusion hd

/-- C8: `CanTransfer` answers true exactly when the account's balance is
at least the amount (it is a pure query — it takes the context and
returns only a boolean, `none` marking the panic on a missing account). -/
theorem canTransfer_iff (d : CtxData) (a amt : Nat) :
    CanTransfer d a amt = some true ↔
      ∃ b, StateDB.GetBalance d a = some b ∧ amt ≤ b := by
  unfold CanTransfer StateDB.GetBalance
  cases h : d.balance a with
  | none => simp [h]
  | some b => simp [h]

/-- C8 witness: a concrete instance of the equivalence. -/
theorem canTransfer_iff_witness :
    (CanTransfer (accts01 10 3) 0 7 = some true ↔
      ∃ b, StateDB.GetBalance (accts01 10 3) 0 = some b ∧ 7 ≤ b) ∧
    CanTransfer (accts01 10 3) 0 7 = some true :=
  ⟨canTransfer_iff (accts01 10 3) 0 7,
    (canTransfer_iff (accts01 10 3) 0 7).mpr ⟨10, by decide, by decide⟩⟩

/-- C10: on an address with no registered account, `Empty` does not
return a boolean — the account lookup failure propagates as a panic
(`none`) — and the same holds for `GetBalance`, `SubBalance` and
`AddBalance`. -/
theorem missing_account_panics (d : CtxData) (a amt : Nat) (h : d.balance a = none) :
    StateDB.Empty d a = none ∧ StateDB.GetBalance d a = none ∧
    StateDB.SubBalance d a amt = none ∧ StateDB.AddBalance d a amt = none := by
  unfold StateDB.Empty StateDB.GetBalance StateDB.SubBalance StateDB.AddBalance
  rw [h]
  exact ⟨rfl, rfl, rfl, rfl⟩

/-- C10 witness: the empty context has no account at address 0. -/
theorem missing_account_panics_witness :
    (emptyCtxData.balance 0 = none) ∧
    (StateDB.Empty emptyCtxData 0 = none ∧ StateDB.GetBalance emptyCtxData 0 = none ∧
     StateDB.SubBalance emptyCtxData 0 3 = none ∧ StateDB.AddBalance emptyCtxData 0 3 = none) :=
  ⟨rfl, missing_account_panics emptyCtxData 0 3 rfl⟩

/-- Reading exactly the length of the first chunk of an append splits it. -/
theorem readExact_append (xs ys : List Nat) : readExact xs.length (xs ++ ys) = some (xs, ys) := by
  simp [readExact, List.take_left, List.drop_left]

/-- `readExact_append` keyed on any count equal to the chunk's length. -/
theorem readExact_append_of_length (n : Nat) (xs ys : List Nat) (h : xs.length = n) :
    readExact n (xs ++ ys) = some (xs, ys) := by
  subst h
  exact readExact_append xs ys

/-- A short read fails. -/
theorem readExact_short (n : Nat) (bs : List Nat) (h : bs.length < n) :
    readExact n bs = none := by
  simp [readExact]
  omega

/-- Reading back a `w`-byte little-endian integer below the width bound. -/
theorem readLE_append (w n : Nat) (ys : List Nat) (h : n < 256 ^ w) :
    readLE w (toLE w n ++ ys) = some (n, ys) := by
  unfold readLE
  rw [readExact_append_of_length w _ ys (toLE_length w n)]
  simp [fromLE_toLE w n h]

/-- A short little-endian read fails. -/
theorem readLE_short (w : Nat) (bs : List Nat) (h : bs.length < w) :
    readLE w bs = none := by
  simp [readLE, readExact_short w bs h]

/-- Truncating an append beyond the first chunk. -/
theorem take_append_of_le (k : Nat) (xs ys : List Nat) (h : xs.length ≤ k) :
    (xs ++ ys).take k = xs ++ ys.take (k - xs.length) := by
  rw [List.take_append_eq_append_take, List.take_of_length_le h]

/-- Truncating an append inside the first chunk. -/
theorem take_append_of_lt (k : Nat) (xs ys : List Nat) (h : k < xs.length) :
    (xs ++ ys).take k = xs.take k := by
  rw [List.take_append_eq_append_take]
  have h0 : k - xs.length = 0 := by omega
  simp [h0]


/-- C9: the wire encoding round-trips — decoding the serialized bytes
(with any trailing remainder) yields the original transaction and the
remainder — and every proper truncation of the encoded bytes is a decode
failure. The bounds are the fixed field widths of the wire format
(type tag 1 byte, timestamp and sequence 8 bytes, address 14 bytes,
4-byte length prefixes). -/
theorem encodeTx_decodeTx_roundtrip (tx : CreateContract) (extra : List Nat)
    (hty : tx.type_ < 256 ^ 1) (hts : tx.timestamp_ < 256 ^ 8) (hsq : tx.seq_ < 256 ^ 8)
    (hfr : tx.from_ < 256 ^ 14) (hnm : tx.name.length < 256 ^ 4)
    (hcd : tx.code.length < 256 ^ 4) (hpr : tx.params.length < 256 ^ 4) :
    decodeTx (encodeTx tx ++ extra) = some (tx, extra) ∧
    ∀ k, k < (encodeTx tx).length → decodeTx ((encodeTx tx).take k) = none := by
  obtain ⟨ty, ts, sq, fr, nm, cd, pr⟩ := tx
  have hty' : ty < 256 ^ 1 := hty
  have hts' : ts < 256 ^ 8 := hts
  have hsq' : sq < 256 ^ 8 := hsq
  have hfr' : fr < 256 ^ 14 := hfr
  have hnm' : nm.length < 256 ^ 4 := hnm
  have hcd' : cd.length < 256 ^ 4 := hcd
  have hpr' : pr.length < 256 ^ 4 := hpr
  constructor
  · simp only [encodeTx, decodeTx, List.append_assoc, Option.some_bind,
      readLE_append, readExact_append, hty', hts', hsq', hfr', hnm', hcd', hpr']
  · intro k hk
    have hE : (encodeTx ⟨ty, ts, sq, fr, nm, cd, pr⟩).length
        = 43 + nm.length + cd.length + pr.length := by
      simp [encodeTx, toLE_length]
      omega
    rw [hE] at hk
    simp only [encodeTx, List.append_assoc]
    by_cases h1 : k < 1
    · rw [take_append_of_lt _ _ _ (show k < (toLE 1 ty).length by rw [toLE_length]; exact h1)]
      simp only [decodeTx]
      rw [readLE_short 1 _ (by simp [toLE_length]; omega)]
      rfl
    · rw [take_append_of_le _ _ _ (show (toLE 1 ty).length ≤ k by rw [toLE_length]; omega),
        toLE_length]
      simp only [decodeTx, readLE_append _ _ _ hty', Option.some_bind]
      by_cases h2 : k - 1 < 8
      · rw [take_append_of_lt _ _ _
          (show k - 1 < (toLE 8 ts).length by rw [toLE_length]; exact h2)]
        rw [readLE_short 8 _ (by simp [toLE_length]; omega)]
        rfl
      · rw [take_append_of_le _ _ _ (show (toLE 8 ts).length ≤ k - 1 by rw [toLE_length]; omega),
          toLE_length]
        simp only [readLE_append _ _ _ hts', Option.some_bind]
        by_cases h3 : k - 1 - 8 < 8
        · rw [take_append_of_lt _ _ _
            (show k - 1 - 8 < (toLE 8 sq).length by rw [toLE_length]; exact h3)]
          rw [readLE_short 8 _ (by simp [toLE_length]; omega)]
          rfl
        · rw [take_append_of_le _ _ _
            (show (toLE 8 sq).length ≤ k - 1 - 8 by rw [toLE_length]; omega), toLE_length]
          simp only [readLE_append _ _ _ hsq', Option.some_bind]
          by_cases h4 : k - 1 - 8 - 8 < 14
          · rw [take_append_of_lt _ _ _
              (show k - 1 - 8 - 8 < (toLE 14 fr).length by rw [toLE_length]; exact h4)]
            rw [readLE_short 14 _ (by simp [toLE_length]; omega)]
            rfl
          · rw [take_append_of_le _ _ _
              (show (toLE 14 fr).length ≤ k - 1 - 8 - 8 by rw [toLE_length]; omega), toLE_length]
            simp only [readLE_append _ _ _ hfr', Option.some_bind]
            by_cases h5 : k - 1 - 8 - 8 - 14 < 4
            · rw [take_append_of_lt _ _ _
                (show k - 1 - 8 - 8 - 14 < (toLE 4 nm.length).length by
                  rw [toLE_length]; exact h5)]
              rw [readLE_short 4 _ (by simp [toLE_length]; omega)]
              rfl
            · rw [take_append_of_le _ _ _
                (show (toLE 4 nm.length).length ≤ k - 1 - 8 - 8 - 14 by
                  rw [toLE_length]; omega), toLE_length]
              simp only [readLE_append _ _ _ hnm', Option.some_bind]
              by_cases h6 : k - 1 - 8 - 8 - 14 - 4 < nm.length
              · rw [take_append_of_lt _ _ _ h6]
                rw [readExact_short nm.length _ (by simp; omega)]
                rfl
              · rw [take_append_of_le _ _ _ (show nm.length ≤ k - 1 - 8 - 8 - 14 - 4 by omega)]
                simp only [readExact_append, Option.some_bind]
                by_cases h7 : k - 1 - 8 - 8 - 14 - 4 - nm.length < 4
                · rw [take_append_of_lt _ _ _
                    (show k - 1 - 8 - 8 - 14 - 4 - nm.length < (toLE 4 cd.length).length by
                      rw [toLE_length]; exact h7)]
                  rw [readLE_short 4 _ (by simp [toLE_length]; omega)]
                  rfl
                · rw [take_append_of_le _ _ _
                    (show (toLE 4 cd.length).length ≤ k - 1 - 8 - 8 - 14 - 4 - nm.length by
                      rw [toLE_length]; omega), toLE_length]
                  simp only [readLE_append _ _ _ hcd', Option.some_bind]
                  by_cases h8 : k - 1 - 8 - 8 - 14 - 4 - nm.length - 4 < cd.length
                  · rw [take_append_of_lt _ _ _ h8]
                    rw [readExact_short cd.length _ (by simp; omega)]
                    rfl
                  · rw [take_append_of_le _ _ _
                      (show cd.length ≤ k - 1 - 8 - 8 - 14 - 4 - nm.length - 4 by omega)]
                    simp only [readExact_append, Option.some_bind]
                    by_cases h9 : k - 1 - 8 - 8 - 14 - 4 - nm.length - 4 - cd.length < 4
                    · rw [take_append_of_lt _ _ _
                        (show k - 1 - 8 - 8 - 14 - 4 - nm.length - 4 - cd.length
                            < (toLE 4 pr.length).length by rw [toLE_length]; exact h9)]
                      rw [readLE_short 4 _ (by simp [toLE_length]; omega)]
                      rfl
                    · rw [take_append_of_le _ _ _
                        (show (toLE 4 pr.length).length
                            ≤ k - 1 - 8 - 8 - 14 - 4 - nm.length - 4 - cd.length by
                          rw [toLE_length]; omega), toLE_length]
                      simp only [readLE_append _ _ _ hpr', Option.some_bind]
                      rw [readExact_short pr.length _ (by simp; omega)]
                      rfl

/-- C9 witness: a concrete transaction, a one-byte remainder, and the
truncation at 5 bytes. -/
theorem encodeTx_decodeTx_roundtrip_witness :
    ((1 : Nat) < 256 ^ 1 ∧ (2 : Nat) < 256 ^ 8 ∧ (3 : Nat) < 256 ^ 8 ∧
      (4 : Nat) < 256 ^ 14 ∧ ([70, 111, 111] : List Nat).length < 256 ^ 4 ∧
      ([170, 187] : List Nat).length < 256 ^ 4 ∧ ([] : List Nat).length < 256 ^ 4) ∧
    decodeTx (encodeTx ⟨1, 2, 3, 4, [70, 111, 111], [170, 187], []⟩ ++ [9])
      = some (⟨1, 2, 3, 4, [70, 111, 111], [170, 187], []⟩, [9]) ∧
    5 < (encodeTx ⟨1, 2, 3, 4, [70, 111, 111], [170, 187], []⟩).length ∧
    decodeTx ((encodeTx ⟨1, 2, 3, 4, [70, 111, 111], [170, 187], []⟩).take 5) = none :=
  ⟨⟨by decide, by decide, by decide, by decide, by decide, by decide, by decide⟩,
    (encodeTx_decodeTx_roundtrip ⟨1, 2, 3, 4, [70, 111, 111], [170, 187], []⟩ [9]
      (by decide) (by decide) (by decide) (by decide) (by decide) (by decide) (by decide)).1,
    by decide,
    (encodeTx_decodeTx_roundtrip ⟨1, 2, 3, 4, [70, 111, 111], [170, 187], []⟩ [9]
      (by decide) (by decide) (by decide) (by decide) (by decide) (by decide) (by decide)).2
      5 (by decide)⟩
